import Mathlib

/-!
cors-anywhere: the request-relay handler of `server.go`.

A shallow embedding of `handleProxyRequest`, `modifyRequestHeaders` and
`copyResponseHeaders` together with the parts of Go's `net/http` and
`net/textproto` they call (`Header.Get/Set/Add/Del`, `CanonicalMIMEHeaderKey`,
`http.Error`, `ResponseWriter.WriteHeader/Write`, `io.Copy`).

Conventions.
* A Go `map[string][]string` is an association list with one entry per key;
  the order of the list is the (unspecified) iteration order of the map.
* Package-level variables (`originBlacklist`, `originWhitelist`) are fields of
  `Globals`; the outcome of `limiter.Allow()` and the behaviour of
  `http.DefaultClient.Do` are inputs of the handler. `clientDo` is that call
  for a request with a given `RequestURI`, and `serveMux` is the handler as
  `main` wires it, on the server's own request.
* `serve` is one exchange as the caller sees it: `handleProxyRequest` on a
  fresh response writer, then the server's end-of-handler step, which sends
  status 200 when the handler wrote none (as does the first `Write`).
* Go strings are byte strings; header names are compared per character, which
  agrees with the byte-wise library code on ASCII and leaves every name with a
  non-token character unchanged, as the library does.
-/

namespace CorsAnywhere

/-! ## net/textproto: canonical header keys -/

/-- Characters of an HTTP token (`validHeaderFieldByte` of `net/textproto`):
letters, digits and the marks ``!#$%&'*+-.^_`|~``. -/
def validHeaderFieldByte (c : Char) : Bool :=
  c.isAlphanum ||
    [ '!', '#', '$', '%', '&', Char.ofNat 39, '*', '+', '-', '.', '^', '_',
      Char.ofNat 96, '|', '~' ].contains c

/-- The rewriting loop of `canonicalMIMEHeaderKey`: upper case for the first
letter and for each letter after a dash, lower case elsewhere. -/
def canonLoop : Bool → List Char → List Char
  | _, [] => []
  | upper, c :: cs =>
    let c1 :=
      if upper && c.isLower then c.toUpper
      else if !upper && c.isUpper then c.toLower
      else c
    c1 :: canonLoop (c1 == '-') cs

/-- The slow path `canonicalMIMEHeaderKey` of `net/textproto`: a key holding a
character outside the token set (a space included) is returned unchanged,
any other key is rewritten by `canonLoop`. -/
def canonicalMIMEHeaderKey (a : List Char) : List Char :=
  if a.all validHeaderFieldByte then canonLoop true a else a

/-- The quick check of `CanonicalMIMEHeaderKey`: scan `rest` with the flag
`upper`; return the whole key `s` at the first invalid character or at the
end, and hand `s` to the slow path at the first letter of the wrong case. -/
def canonScan (s : List Char) : Bool → List Char → List Char
  | _, [] => s
  | upper, c :: rest =>
    if !validHeaderFieldByte c then s
    else if upper && c.isLower then canonicalMIMEHeaderKey s
    else if !upper && c.isUpper then canonicalMIMEHeaderKey s
    else canonScan s (c == '-') rest

/-- Go `textproto.CanonicalMIMEHeaderKey`. -/
def CanonicalMIMEHeaderKey (s : String) : String :=
  String.mk (canonScan s.toList true s.toList)

/-! ## net/http: header maps -/

/-- Go `http.Header`, a `map[string][]string`. -/
abbrev Header := List (String × List String)

namespace Header

/-- Map read `h[key]` with presence: `none` when the key is not in the map. -/
def lookup : Header → String → Option (List String)
  | [], _ => none
  | (k, vs) :: rest, key => if k = key then some vs else lookup rest key

/-- Map read `h[key]`: the nil slice when the key is not in the map. -/
def index (h : Header) (key : String) : List String :=
  (lookup h key).getD []

/-- Keys present in the map. -/
def keys (h : Header) : List String := h.map Prod.fst

/-- Go `delete(h, key)`. -/
def delete : Header → String → Header
  | [], _ => []
  | (k, vs) :: rest, key =>
    if k = key then delete rest key else (k, vs) :: delete rest key

/-- Map write `h[key] = vs`. -/
def store (h : Header) (key : String) (vs : List String) : Header :=
  (key, vs) :: delete h key

/-- Go `Header.Get`: first value under the canonical key, or the empty
string. -/
def Get (h : Header) (key : String) : String :=
  match index h (CanonicalMIMEHeaderKey key) with
  | [] => ""
  | v :: _ => v

/-- Go `Header.Set`: replace the values under the canonical key by the single
value. -/
def Set (h : Header) (key value : String) : Header :=
  store h (CanonicalMIMEHeaderKey key) [value]

/-- Go `Header.Add`: append the value to the values under the canonical
key. -/
def Add (h : Header) (key value : String) : Header :=
  let k := CanonicalMIMEHeaderKey key
  store h k (index h k ++ [value])

/-- Go `Header.Del`. -/
def Del (h : Header) (key : String) : Header :=
  delete h (CanonicalMIMEHeaderKey key)

end Header

/-! ## net/http: the response writer, `http.Error`, `io.Copy` -/

/-- The server side of one exchange as the handler sees it (`http.response`):
`header` is the map returned by `w.Header()`; `wroteHeader`, `status` and
`sentHeader` record the status line, fixed by the first `WriteHeader`
together with a snapshot of the header map; `body` is what was written. -/
structure ResponseWriter where
  header : Header
  wroteHeader : Bool
  status : Nat
  sentHeader : Header
  body : String
  deriving DecidableEq, Repr

namespace ResponseWriter

/-- The writer a handler is called with: nothing set, nothing sent. -/
def new : ResponseWriter :=
  { header := [], wroteHeader := false, status := 0, sentHeader := [], body := "" }

/-- Go `ResponseWriter.WriteHeader` for a final status code: the first call
fixes the status and the headers, a later call is ignored ("superfluous
WriteHeader call"). -/
def WriteHeader (w : ResponseWriter) (code : Nat) : ResponseWriter :=
  if w.wroteHeader then w
  else { w with wroteHeader := true, status := code, sentHeader := w.header }

/-- Go `ResponseWriter.Write`: sends status 200 first when no status was
written yet, then appends the data. -/
def Write (w : ResponseWriter) (data : String) : ResponseWriter :=
  let w1 := if w.wroteHeader then w else WriteHeader w 200
  { w1 with body := w1.body ++ data }

/-- What the server does when the handler returns (`finishRequest`): a
response on which no status was written goes out with status 200. -/
def finishRequest (w : ResponseWriter) : ResponseWriter :=
  if w.wroteHeader then w else WriteHeader w 200

end ResponseWriter

/-- Go `http.StatusTooManyRequests`. -/
def StatusTooManyRequests : Nat := 429

/-- Go `http.StatusInternalServerError`. -/
def StatusInternalServerError : Nat := 500

/-- Go `http.Error`: drop `Content-Length`, mark the reply as plain text,
write the status, then the message followed by a newline. -/
def Error (w : ResponseWriter) (error : String) (code : Nat) : ResponseWriter :=
  let h := Header.Del w.header "Content-Length"
  let h := Header.Set h "Content-Type" "text/plain; charset=utf-8"
  let h := Header.Set h "X-Content-Type-Options" "nosniff"
  let w := ResponseWriter.WriteHeader { w with header := h } code
  ResponseWriter.Write w (error ++ "\n")

/-- An upstream body stream (`resp.Body`): it yields `data` and then ends,
with `io.EOF` when `err` is `none` and with the read error otherwise. -/
structure Body where
  data : String
  err : Option String
  deriving DecidableEq, Repr

/-- Go `http.Request`, the fields the relay touches. -/
structure Request where
  method : String
  url : String
  header : Header
  body : String
  deriving DecidableEq, Repr

/-- Go `http.Response` as returned by `http.DefaultClient.Do`. -/
structure Response where
  statusCode : Nat
  header : Header
  body : Body
  deriving DecidableEq, Repr

/-- Go `io.Copy(w, body)`: the bytes read are written to `w` (no `Write` call
happens when nothing was read); the result is the read error, if any. Writes
to the caller are taken to succeed. -/
def ioCopy (w : ResponseWriter) (body : Body) : ResponseWriter × Option String :=
  ((if body.data = "" then w else ResponseWriter.Write w body.data), body.err)

/-! ## server.go -/

/-- The package-level variables `originBlacklist` and `originWhitelist`
(server.go lines 14-18) as `main` leaves them. -/
structure Globals where
  originBlacklist : List String
  originWhitelist : List String
  deriving DecidableEq, Repr

/-- The `modifyRequestHeaders` function of server.go (lines 99-103). -/
def modifyRequestHeaders (r : Request) : Request :=
  let r := { r with header := Header.Set r.header "origin" (Header.Get r.header "Origin") }
  { r with header :=
      Header.Set r.header "x-requested-with" (Header.Get r.header "X-Requested-With") }

/-- The inner loop of `copyResponseHeaders` (lines 108-110): add each value
of one upstream header. -/
def addValues (dst : Header) (header : String) (values : List String) : Header :=
  values.foldl (fun d value => Header.Add d header value) dst

/-- The outer loop of `copyResponseHeaders` (lines 107-111) over the entries
of `resp.Header`, in the order the map yields them. -/
def copyLoop (dst : Header) (src : Header) : Header :=
  src.foldl (fun d p => addValues d p.1 p.2) dst

/-- The `copyResponseHeaders` function of server.go (lines 105-124), acting
on the header map of the response writer. -/
def copyResponseHeaders (g : Globals) (w : ResponseWriter) (resp : Response) :
    ResponseWriter :=
  let h := copyLoop w.header resp.header
  let origin := Header.Get resp.header "Access-Control-Allow-Origin"
  let origin :=
    if origin = "" ∧ g.originWhitelist.length > 0 then g.originWhitelist.headD ""
    else origin
  let h := Header.Set h "Access-Control-Allow-Origin" origin
  let h := Header.Set h "Access-Control-Allow-Methods" "GET, POST, PUT, DELETE, OPTIONS"
  let h := Header.Set h "Access-Control-Allow-Headers" "Content-Type, Authorization"
  { w with header := h }

/-- What one run of the handler did: the response writer, the request (whose
header map the handler mutates in place), the request handed to
`http.DefaultClient.Do` if that call was made, and whether the deferred
`resp.Body.Close()` ran. -/
structure Exchange where
  w : ResponseWriter
  r : Request
  forwarded : Option Request
  bodyClosed : Bool
  deriving DecidableEq, Repr

/-- The `handleProxyRequest` function of server.go (lines 71-97). `allow` is
the result of `limiter.Allow()` for this request and `client` is
`http.DefaultClient.Do`. -/
def handleProxyRequest (g : Globals) (allow : Bool)
    (client : Request → Except String Response)
    (w : ResponseWriter) (r : Request) : Exchange :=
  if !allow then
    { w := Error w "Too Many Requests" StatusTooManyRequests, r := r,
      forwarded := none, bodyClosed := false }
  else
    let r := modifyRequestHeaders r
    match client r with
    | Except.error err =>
      { w := Error w err StatusInternalServerError, r := r,
        forwarded := some r, bodyClosed := false }
    | Except.ok resp =>
      let w := copyResponseHeaders g w resp
      match ioCopy w resp.body with
      | (w, some err) =>
        { w := Error w err StatusInternalServerError, r := r,
          forwarded := some r, bodyClosed := true }
      | (w, none) =>
        { w := w, r := r, forwarded := some r, bodyClosed := true }

/-- One request through the server: the handler runs on a fresh response
writer and the server finishes the response when the handler returns. -/
def serve (g : Globals) (allow : Bool) (client : Request → Except String Response)
    (r : Request) : Exchange :=
  let x := handleProxyRequest g allow client ResponseWriter.new r
  { x with w := ResponseWriter.finishRequest x.w }

/-! ## net/http: the client call as `main` wires it -/

/-- Go `urlErrorOp`: the `Op` of the `url.Error` that `Client.Do` returns,
"Get" for an empty method, else the method with everything after its first
byte in lower case; a method holding a byte outside printable ASCII is kept
as it is. -/
def urlErrorOp (method : String) : String :=
  if method = "" then "Get"
  else if method.toList.all (fun c => decide (32 ≤ c.toNat ∧ c.toNat ≤ 126)) then
    match method.toList with
    | [] => method
    | c :: cs => String.mk (c :: cs.map Char.toLower)
  else method

/-- Go `%q` on a string of printable ASCII, as `URL.String()` yields for a
parsed request target: the string between double quotes, with a backslash
before each double quote and backslash. -/
def goQuote (s : String) : String :=
  String.mk
    (Char.ofNat 34 ::
      (s.toList.flatMap
        (fun c => if c = Char.ofNat 34 ∨ c = Char.ofNat 92 then [Char.ofNat 92, c] else [c]))
      ++ [Char.ofNat 34])

/-- Go `(*url.Error).Error()`: the operation, the quoted URL, a colon and the
cause. -/
def urlErrorText (op url err : String) : String :=
  op ++ " " ++ goQuote url ++ ": " ++ err

/-- Go `http.DefaultClient.Do(r)` for a request whose `RequestURI` field holds
`requestURI`. The client's `send` refuses a request with that field set before
any connection is made, and `Do` returns the refusal wrapped in a `url.Error`;
for a request with the field empty the outcome is that of the round trip to
the target, `transport`. -/
def clientDo (requestURI : String) (transport : Request → Except String Response)
    (r : Request) : Except String Response :=
  if requestURI = "" then transport r
  else
    Except.error
      (urlErrorText (urlErrorOp r.method) r.url
        "http: Request.RequestURI can't be set in client requests")

/-- One request as `main` wires it (lines 55-56 and 82): the mux calls
`handleProxyRequest` with the server's own request, whose `RequestURI` is the
target of the request line (never empty, never written by the handler), and
line 82 hands that same request to `http.DefaultClient.Do`. -/
def serveMux (g : Globals) (allow : Bool) (transport : Request → Except String Response)
    (requestURI : String) (r : Request) : Exchange :=
  serve g allow (clientDo requestURI transport) r

/-- The three header names `copyResponseHeaders` overwrites. -/
def corsNames : List String :=
  [ "Access-Control-Allow-Origin", "Access-Control-Allow-Methods",
    "Access-Control-Allow-Headers" ]

/-! ## Sample inputs -/

/-- A caller request without `Origin` and `X-Requested-With`. -/
def plainRequest : Request :=
  { method := "GET", url := "http://upstream.example/data",
    header := [("Accept", ["*/*"])], body := "" }

/-- A caller request carrying two `Origin` values. -/
def twoOriginRequest : Request :=
  { method := "GET", url := "http://upstream.example/data",
    header := [("Origin", ["https://one.example", "https://two.example"]),
               ("X-Requested-With", ["XMLHttpRequest"])], body := "" }

/-- A caller request carrying one `Origin` and one `X-Requested-With` value. -/
def browserRequest : Request :=
  { method := "POST", url := "http://upstream.example/data",
    header := [("Origin", ["https://page.example"]), ("Cookie", ["a=1", "b=2"]),
               ("X-Requested-With", ["XMLHttpRequest"])], body := "payload" }

/-- An upstream reply with status 404, a repeated header and its own CORS
headers. -/
def notFoundResponse : Response :=
  { statusCode := 404,
    header := [("Content-Type", ["text/html"]), ("Set-Cookie", ["a=1", "b=2"]),
               ("Access-Control-Allow-Origin", ["https://upstream.example"]),
               ("Access-Control-Allow-Methods", ["GET", "HEAD"])],
    body := { data := "not found", err := none } }

/-- An upstream reply without any CORS header. -/
def bareResponse : Response :=
  { statusCode := 200,
    header := [("Content-Type", ["application/json"]), ("Vary", ["Accept", "Origin"])],
    body := { data := "{}", err := none } }

/-- Globals with a two-entry whitelist and a one-entry blacklist. -/
def listedGlobals : Globals :=
  { originBlacklist := ["https://bad.example"],
    originWhitelist := ["https://a.example", "https://b.example"] }

/-- Globals with both lists empty. -/
def emptyGlobals : Globals := { originBlacklist := [], originWhitelist := [] }

/-! ## Header maps: reads after writes -/

namespace Header

theorem lookup_delete (h : Header) (key k : String) :
    lookup (delete h key) k = if key = k then none else lookup h k := by
  induction h with
  | nil => simp [delete, lookup]
  | cons p rest ih =>
    obtain ⟨a, vs⟩ := p
    by_cases ha : a = key
    · subst ha
      by_cases hk : a = k
      · subst hk
        simp [delete, ih]
      · simp [delete, ih, hk, lookup]
    · by_cases hk : key = k
      · subst hk
        simp [delete, ha, lookup, ih]
      · simp [delete, ha, lookup, ih, hk]

theorem lookup_store (h : Header) (key k : String) (vs : List String) :
    lookup (store h key vs) k = if key = k then some vs else lookup h k := by
  by_cases hk : key = k
  · simp [store, lookup, hk]
  · simp [store, lookup, hk, lookup_delete]

theorem index_store (h : Header) (key k : String) (vs : List String) :
    index (store h key vs) k = if key = k then vs else index h k := by
  unfold index
  rw [lookup_store]
  split <;> rfl

theorem lookup_Set (h : Header) (key value k : String) :
    lookup (Set h key value) k =
      if CanonicalMIMEHeaderKey key = k then some [value] else lookup h k :=
  lookup_store h _ k _

theorem lookup_Del (h : Header) (key k : String) :
    lookup (Del h key) k =
      if CanonicalMIMEHeaderKey key = k then none else lookup h k :=
  lookup_delete h _ k

theorem index_Set (h : Header) (key value k : String) :
    index (Set h key value) k =
      if CanonicalMIMEHeaderKey key = k then [value] else index h k :=
  index_store h _ k _

theorem index_Add (h : Header) (key value k : String) :
    index (Add h key value) k =
      if CanonicalMIMEHeaderKey key = k then index h k ++ [value] else index h k := by
  unfold Add
  simp only [index_store]
  split
  · next hk => rw [hk]
  · rfl

theorem mem_keys_delete (h : Header) (key k : String) :
    k ∈ keys (delete h key) ↔ k ∈ keys h ∧ k ≠ key := by
  induction h with
  | nil => simp [delete, keys]
  | cons p rest ih =>
    obtain ⟨a, vs⟩ := p
    unfold keys at ih ⊢
    by_cases ha : a = key
    · subst ha
      simp only [delete, if_true, ih, List.map_cons, List.mem_cons]
      constructor
      · rintro ⟨hk, hne⟩
        exact ⟨Or.inr hk, hne⟩
      · rintro ⟨hk | hk, hne⟩
        · exact absurd hk hne
        · exact ⟨hk, hne⟩
    · simp only [delete, ha, if_false, List.map_cons, List.mem_cons, ih]
      constructor
      · rintro (hk | ⟨hk, hne⟩)
        · exact ⟨Or.inl hk, fun e => ha (hk ▸ e)⟩
        · exact ⟨Or.inr hk, hne⟩
      · rintro ⟨hk | hk, hne⟩
        · exact Or.inl hk
        · exact Or.inr ⟨hk, hne⟩

theorem mem_keys_store (h : Header) (key k : String) (vs : List String) :
    k ∈ keys (store h key vs) ↔ k = key ∨ k ∈ keys h := by
  have hd := mem_keys_delete h key k
  unfold store
  unfold keys at hd ⊢
  rw [List.map_cons, List.mem_cons, hd]
  constructor
  · rintro (hk | ⟨hk, _⟩)
    · exact Or.inl hk
    · exact Or.inr hk
  · rintro (hk | hk)
    · exact Or.inl hk
    · by_cases hkk : k = key
      · exact Or.inl hkk
      · exact Or.inr ⟨hk, hkk⟩

theorem lookup_eq_none_of_not_mem (h : Header) (k : String) (hk : k ∉ keys h) :
    lookup h k = none := by
  induction h with
  | nil => rfl
  | cons p rest ih =>
    obtain ⟨a, vs⟩ := p
    simp only [keys, List.map_cons, List.mem_cons, not_or] at hk
    have hak : a ≠ k := fun e => hk.1 e.symm
    simp only [lookup, hak, if_false]
    exact ih hk.2

theorem index_eq_nil_of_not_mem (h : Header) (k : String) (hk : k ∉ keys h) :
    index h k = [] := by
  unfold index
  rw [lookup_eq_none_of_not_mem h k hk]
  rfl

theorem mem_keys_Set (h : Header) (key value k : String) :
    k ∈ keys (Set h key value) ↔ k = CanonicalMIMEHeaderKey key ∨ k ∈ keys h :=
  mem_keys_store h _ k _

theorem mem_keys_Add (h : Header) (key value k : String) :
    k ∈ keys (Add h key value) ↔ k = CanonicalMIMEHeaderKey key ∨ k ∈ keys h :=
  mem_keys_store h _ k _

end Header

/-! ## The copy loop of `copyResponseHeaders` -/

theorem index_addValues (values : List String) (dst : Header) (header k : String) :
    Header.index (addValues dst header values) k =
      if CanonicalMIMEHeaderKey header = k then Header.index dst k ++ values
      else Header.index dst k := by
  induction values generalizing dst with
  | nil =>
    simp [addValues]
  | cons v vs ih =>
    have hstep : addValues dst header (v :: vs) = addValues (Header.Add dst header v) header vs :=
      rfl
    rw [hstep, ih, Header.index_Add]
    by_cases hk : CanonicalMIMEHeaderKey header = k
    · simp [hk]
    · simp [hk]

theorem mem_keys_addValues (values : List String) (dst : Header) (header k : String)
    (hk : k ∈ Header.keys (addValues dst header values)) :
    k = CanonicalMIMEHeaderKey header ∨ k ∈ Header.keys dst := by
  induction values generalizing dst with
  | nil => exact Or.inr hk
  | cons v vs ih =>
    have hstep : addValues dst header (v :: vs) = addValues (Header.Add dst header v) header vs :=
      rfl
    rw [hstep] at hk
    rcases ih _ hk with h1 | h1
    · exact Or.inl h1
    · exact (Header.mem_keys_Add dst header v k).1 h1

theorem index_copyLoop (src : Header) (dst : Header) (k : String)
    (hnodup : (Header.keys src).Nodup)
    (hcanon : ∀ key ∈ Header.keys src, CanonicalMIMEHeaderKey key = key) :
    Header.index (copyLoop dst src) k = Header.index dst k ++ Header.index src k := by
  induction src generalizing dst with
  | nil => simp [copyLoop, Header.index, Header.lookup]
  | cons p rest ih =>
    obtain ⟨a, vs⟩ := p
    have hstep : copyLoop dst ((a, vs) :: rest) = copyLoop (addValues dst a vs) rest := rfl
    have hnd : a ∉ Header.keys rest ∧ (Header.keys rest).Nodup := by
      simpa [Header.keys] using hnodup
    have hca : CanonicalMIMEHeaderKey a = a := hcanon a (by simp [Header.keys])
    have hcr : ∀ key ∈ Header.keys rest, CanonicalMIMEHeaderKey key = key := by
      intro key hkey
      exact hcanon key (by simp only [Header.keys, List.map_cons, List.mem_cons]; exact Or.inr hkey)
    rw [hstep, ih (addValues dst a vs) hnd.2 hcr, index_addValues, hca]
    by_cases hk : a = k
    · subst hk
      rw [Header.index_eq_nil_of_not_mem rest a hnd.1]
      simp [Header.index, Header.lookup]
    · simp [Header.index, Header.lookup, hk]

theorem mem_keys_copyLoop (src : Header) (dst : Header) (k : String)
    (hcanon : ∀ key ∈ Header.keys src, CanonicalMIMEHeaderKey key = key)
    (hk : k ∈ Header.keys (copyLoop dst src)) :
    k ∈ Header.keys dst ∨ k ∈ Header.keys src := by
  induction src generalizing dst with
  | nil => exact Or.inl hk
  | cons p rest ih =>
    obtain ⟨a, vs⟩ := p
    have hstep : copyLoop dst ((a, vs) :: rest) = copyLoop (addValues dst a vs) rest := rfl
    have hca : CanonicalMIMEHeaderKey a = a := hcanon a (by simp [Header.keys])
    have hcr : ∀ key ∈ Header.keys rest, CanonicalMIMEHeaderKey key = key := by
      intro key hkey
      exact hcanon key (by simp only [Header.keys, List.map_cons, List.mem_cons]; exact Or.inr hkey)
    rw [hstep] at hk
    rcases ih _ hcr hk with h1 | h1
    · rcases mem_keys_addValues vs dst a k h1 with h2 | h2
      · right
        simp only [Header.keys, List.map_cons, List.mem_cons]
        exact Or.inl (h2.trans hca)
      · exact Or.inl h2
    · right
      simp only [Header.keys, List.map_cons, List.mem_cons]
      exact Or.inr h1

/-! ## Canonical forms of the literal header names in server.go -/

theorem canon_allow_origin :
    CanonicalMIMEHeaderKey "Access-Control-Allow-Origin" = "Access-Control-Allow-Origin" := by
  decide

theorem canon_allow_methods :
    CanonicalMIMEHeaderKey "Access-Control-Allow-Methods" = "Access-Control-Allow-Methods" := by
  decide

theorem canon_allow_headers :
    CanonicalMIMEHeaderKey "Access-Control-Allow-Headers" = "Access-Control-Allow-Headers" := by
  decide

theorem canon_origin_lower : CanonicalMIMEHeaderKey "origin" = "Origin" := by decide

theorem canon_origin : CanonicalMIMEHeaderKey "Origin" = "Origin" := by decide

theorem canon_requested_with_lower :
    CanonicalMIMEHeaderKey "x-requested-with" = "X-Requested-With" := by decide

theorem canon_requested_with :
    CanonicalMIMEHeaderKey "X-Requested-With" = "X-Requested-With" := by decide

theorem canon_content_length : CanonicalMIMEHeaderKey "Content-Length" = "Content-Length" := by
  decide

theorem canon_content_type : CanonicalMIMEHeaderKey "Content-Type" = "Content-Type" := by
  decide

theorem canon_nosniff :
    CanonicalMIMEHeaderKey "X-Content-Type-Options" = "X-Content-Type-Options" := by
  decide

/-- The Access-Control-Allow-Origin value `copyResponseHeaders` leaves in the
header map is its local `origin`, whatever the map held before. -/
theorem lookup_allow_origin (g : Globals) (w : ResponseWriter) (resp : Response) :
    Header.lookup (copyResponseHeaders g w resp).header "Access-Control-Allow-Origin" =
      some [ if Header.Get resp.header "Access-Control-Allow-Origin" = "" ∧
                g.originWhitelist.length > 0
             then g.originWhitelist.headD ""
             else Header.Get resp.header "Access-Control-Allow-Origin" ] := by
  simp [copyResponseHeaders, Header.lookup_Set, canon_allow_origin, canon_allow_methods,
    canon_allow_headers]

/-- After a forwarded exchange the headers sent to the caller agree with the
map `copyResponseHeaders` built, on every name `http.Error` does not touch. -/
theorem serve_ok_sentHeader (g : Globals) (client : Request → Except String Response)
    (r : Request) (resp : Response) (k : String)
    (hdo : client (modifyRequestHeaders r) = Except.ok resp)
    (h1 : k ≠ "Content-Length") (h2 : k ≠ "Content-Type")
    (h3 : k ≠ "X-Content-Type-Options") :
    Header.lookup (serve g true client r).w.sentHeader k =
      Header.lookup (copyResponseHeaders g ResponseWriter.new resp).header k := by
  have e1 : ¬ ("Content-Length" = k) := fun e => h1 e.symm
  have e2 : ¬ ("Content-Type" = k) := fun e => h2 e.symm
  have e3 : ¬ ("X-Content-Type-Options" = k) := fun e => h3 e.symm
  have hw : (copyResponseHeaders g ResponseWriter.new resp).wroteHeader = false := rfl
  unfold serve handleProxyRequest
  simp only [Bool.not_true, Bool.false_eq_true, if_false, hdo, ioCopy]
  by_cases hdata : resp.body.data = ""
  · cases herr : resp.body.err with
    | none =>
      simp [hdata, herr, ResponseWriter.finishRequest, ResponseWriter.WriteHeader, hw]
    | some err =>
      simp [hdata, herr, ResponseWriter.finishRequest, ResponseWriter.WriteHeader,
        ResponseWriter.Write, Error, hw, Header.lookup_Set, Header.lookup_Del,
        canon_content_length, canon_content_type, canon_nosniff, e1, e2, e3]
  · cases herr : resp.body.err with
    | none =>
      simp [hdata, herr, ResponseWriter.finishRequest, ResponseWriter.WriteHeader,
        ResponseWriter.Write, hw]
    | some err =>
      simp [hdata, herr, ResponseWriter.finishRequest, ResponseWriter.WriteHeader,
        ResponseWriter.Write, Error, hw]

/-! ## Claims -/

/-- C1 (evaluation at the failing input): the request line
`GET http://upstream.example/data HTTP/1.1` arrives through the mux and is
admitted; the target would answer 404. The handler passes the server's request
to `http.DefaultClient.Do`, which refuses it, so the caller gets status 500
with the refusal as body and no CORS header, not the upstream status; and the
exchange is the same whatever the target would answer. -/
theorem handleProxyRequest_mux_request_refused :
    (serveMux listedGlobals true (fun _ => Except.ok notFoundResponse)
        "http://upstream.example/data" plainRequest).w.wroteHeader = true ∧
    (serveMux listedGlobals true (fun _ => Except.ok notFoundResponse)
        "http://upstream.example/data" plainRequest).w.status = 500 ∧
    (serveMux listedGlobals true (fun _ => Except.ok notFoundResponse)
        "http://upstream.example/data" plainRequest).w.status ≠ notFoundResponse.statusCode ∧
    (serveMux listedGlobals true (fun _ => Except.ok notFoundResponse)
        "http://upstream.example/data" plainRequest).w.body =
      "Get \"http://upstream.example/data\": " ++
        "http: Request.RequestURI can't be set in client requests\n" ∧
    Header.lookup (serveMux listedGlobals true (fun _ => Except.ok notFoundResponse)
        "http://upstream.example/data" plainRequest).w.sentHeader
        "Access-Control-Allow-Origin" = none ∧
    (∀ transport : Request → Except String Response,
      serveMux listedGlobals true transport "http://upstream.example/data" plainRequest =
        serveMux listedGlobals true (fun _ => Except.ok notFoundResponse)
          "http://upstream.example/data" plainRequest) := by
  refine ⟨by decide, by decide, by decide, by decide, by decide, ?_⟩
  intro transport
  rfl

/-- Every admitted request that reaches the handler through the mux (its
`RequestURI` is set) is answered with status 500 and the client's refusal as
body, whatever the target would answer: no upstream status is ever relayed. -/
theorem serveMux_admitted (g : Globals) (transport : Request → Except String Response)
    (requestURI : String) (r : Request) (huri : requestURI ≠ "") :
    (serveMux g true transport requestURI r).w.status = 500 ∧
    (serveMux g true transport requestURI r).w.body =
      urlErrorText (urlErrorOp (modifyRequestHeaders r).method) (modifyRequestHeaders r).url
        "http: Request.RequestURI can't be set in client requests" ++ "\n" := by
  simp [serveMux, serve, handleProxyRequest, clientDo, huri, Error,
    ResponseWriter.finishRequest, ResponseWriter.WriteHeader, ResponseWriter.Write,
    ResponseWriter.new, StatusInternalServerError]

/-- When the handler is called with a request the client accepts (one built by
hand, `RequestURI` empty) and the body transfer succeeds, the exchange goes out
with status 200 whatever status the upstream answered with:
`handleProxyRequest` never passes `resp.StatusCode` to `WriteHeader`. -/
theorem serve_status_of_forwarded (g : Globals) (r : Request) (s : Nat) (hdr : Header)
    (data : String) :
    (serve g true (fun _ => Except.ok (Response.mk s hdr (Body.mk data none))) r).w.status
      = 200 := by
  unfold serve handleProxyRequest
  by_cases hdata : data = ""
  · simp [ioCopy, hdata, ResponseWriter.finishRequest, ResponseWriter.WriteHeader,
      copyResponseHeaders, ResponseWriter.new]
  · simp [ioCopy, hdata, ResponseWriter.finishRequest, ResponseWriter.WriteHeader,
      ResponseWriter.Write, copyResponseHeaders, ResponseWriter.new]

/-- C2: when the upstream response carries a non-empty
Access-Control-Allow-Origin value `v`, then for every whitelist and every
response header map to start from (the empty one included) the map
`copyResponseHeaders` leaves holds exactly one Access-Control-Allow-Origin
value, namely `v`. -/
theorem copyResponseHeaders_upstream_origin_wins (g : Globals) (w : ResponseWriter)
    (resp : Response) (v : String)
    (hv : Header.Get resp.header "Access-Control-Allow-Origin" = v) (hne : v ≠ "") :
    Header.lookup (copyResponseHeaders g w resp).header "Access-Control-Allow-Origin" =
      some [v] := by
  rw [lookup_allow_origin, hv]
  simp [hne]

theorem copyResponseHeaders_upstream_origin_wins_witness :
    Header.Get notFoundResponse.header "Access-Control-Allow-Origin"
        = "https://upstream.example" ∧
    "https://upstream.example" ≠ "" ∧
    Header.lookup (copyResponseHeaders listedGlobals ResponseWriter.new notFoundResponse).header
        "Access-Control-Allow-Origin" = some ["https://upstream.example"] :=
  ⟨by decide, by decide,
    copyResponseHeaders_upstream_origin_wins listedGlobals ResponseWriter.new notFoundResponse
      "https://upstream.example" (by decide) (by decide)⟩

/-- C3: when the upstream response has no Access-Control-Allow-Origin value
(absent or empty) and the whitelist is non-empty, `copyResponseHeaders` leaves
exactly one Access-Control-Allow-Origin value, the first whitelist entry; and
for every caller request (any `Origin`) whose forwarding yields that response,
this is the value sent to the caller. -/
theorem copyResponseHeaders_whitelist_fallback (g : Globals) (first : String)
    (rest : List String) (resp : Response)
    (hwl : g.originWhitelist = first :: rest)
    (hnone : Header.Get resp.header "Access-Control-Allow-Origin" = "") :
    (∀ w : ResponseWriter,
      Header.lookup (copyResponseHeaders g w resp).header "Access-Control-Allow-Origin" =
        some [first]) ∧
    (∀ (client : Request → Except String Response) (r : Request),
      client (modifyRequestHeaders r) = Except.ok resp →
      Header.lookup (serve g true client r).w.sentHeader "Access-Control-Allow-Origin" =
        some [first]) := by
  have hcopy : ∀ w : ResponseWriter,
      Header.lookup (copyResponseHeaders g w resp).header "Access-Control-Allow-Origin" =
        some [first] := by
    intro w
    rw [lookup_allow_origin, hnone, hwl]
    simp
  refine ⟨hcopy, ?_⟩
  intro client r hdo
  rw [serve_ok_sentHeader g client r resp _ hdo (by decide) (by decide) (by decide)]
  exact hcopy _

theorem copyResponseHeaders_whitelist_fallback_witness :
    listedGlobals.originWhitelist = "https://a.example" :: ["https://b.example"] ∧
    Header.Get bareResponse.header "Access-Control-Allow-Origin" = "" ∧
    Header.lookup (copyResponseHeaders listedGlobals ResponseWriter.new bareResponse).header
        "Access-Control-Allow-Origin" = some ["https://a.example"] ∧
    Header.lookup (serve listedGlobals true (fun _ => Except.ok bareResponse)
        browserRequest).w.sentHeader "Access-Control-Allow-Origin" =
      some ["https://a.example"] ∧
    Header.lookup (serve listedGlobals true (fun _ => Except.ok bareResponse)
        plainRequest).w.sentHeader "Access-Control-Allow-Origin" =
      some ["https://a.example"] :=
  ⟨rfl, by decide,
    (copyResponseHeaders_whitelist_fallback listedGlobals "https://a.example"
      ["https://b.example"] bareResponse rfl (by decide)).1 ResponseWriter.new,
    (copyResponseHeaders_whitelist_fallback listedGlobals "https://a.example"
      ["https://b.example"] bareResponse rfl (by decide)).2 _ browserRequest rfl,
    (copyResponseHeaders_whitelist_fallback listedGlobals "https://a.example"
      ["https://b.example"] bareResponse rfl (by decide)).2 _ plainRequest rfl⟩

/-- C4: for every upstream response, whitelist and response header map to
start from, the map `copyResponseHeaders` leaves holds exactly one
Access-Control-Allow-Methods value, "GET, POST, PUT, DELETE, OPTIONS", and
exactly one Access-Control-Allow-Headers value,
"Content-Type, Authorization": upstream values are overwritten. -/
theorem copyResponseHeaders_fixed_methods_and_headers (g : Globals) (w : ResponseWriter)
    (resp : Response) :
    Header.lookup (copyResponseHeaders g w resp).header "Access-Control-Allow-Methods" =
      some ["GET, POST, PUT, DELETE, OPTIONS"] ∧
    Header.lookup (copyResponseHeaders g w resp).header "Access-Control-Allow-Headers" =
      some ["Content-Type, Authorization"] := by
  constructor <;>
    simp [copyResponseHeaders, Header.lookup_Set, canon_allow_origin, canon_allow_methods,
      canon_allow_headers]

/-- C5: when `limiter.Allow()` returns false the caller gets status 429 with
the plain-text body "Too Many Requests", `http.DefaultClient.Do` is not called
and the request is left as it came in. -/
theorem handleProxyRequest_rate_limited (g : Globals)
    (client : Request → Except String Response) (r : Request) :
    (serve g false client r).w.wroteHeader = true ∧
    (serve g false client r).w.status = 429 ∧
    (serve g false client r).w.body = "Too Many Requests\n" ∧
    Header.lookup (serve g false client r).w.sentHeader "Content-Type" =
      some ["text/plain; charset=utf-8"] ∧
    (serve g false client r).forwarded = none ∧
    (serve g false client r).r = r ∧
    (serve g false client r).bodyClosed = false := by
  refine ⟨?_, ?_, ?_, ?_, ?_, ?_, ?_⟩ <;> rfl

/-- C6: when the request is admitted and `http.DefaultClient.Do` returns the
error `e`, the caller gets status 500 with the non-empty body `e` followed by a
newline; the headers sent are the two `http.Error` sets, so no upstream header
was copied and none of the three CORS headers was written. -/
theorem handleProxyRequest_transport_error (g : Globals)
    (client : Request → Except String Response) (r : Request) (e : String)
    (hdo : client (modifyRequestHeaders r) = Except.error e) :
    (serve g true client r).w.wroteHeader = true ∧
    (serve g true client r).w.status = 500 ∧
    (serve g true client r).w.body = e ++ "\n" ∧
    (serve g true client r).w.body ≠ "" ∧
    Header.keys (serve g true client r).w.sentHeader =
      ["X-Content-Type-Options", "Content-Type"] ∧
    Header.keys (serve g true client r).w.header =
      ["X-Content-Type-Options", "Content-Type"] ∧
    (∀ name ∈ corsNames, Header.lookup (serve g true client r).w.sentHeader name = none) ∧
    (serve g true client r).forwarded = some (modifyRequestHeaders r) := by
  have hx : serve g true client r =
      { w := ResponseWriter.finishRequest
          (Error ResponseWriter.new e StatusInternalServerError),
        r := modifyRequestHeaders r, forwarded := some (modifyRequestHeaders r),
        bodyClosed := false } := by
    simp [serve, handleProxyRequest, hdo]
  have hw : ResponseWriter.finishRequest
      (Error ResponseWriter.new e StatusInternalServerError) =
      { header := [("X-Content-Type-Options", ["nosniff"]),
                   ("Content-Type", ["text/plain; charset=utf-8"])],
        wroteHeader := true, status := 500,
        sentHeader := [("X-Content-Type-Options", ["nosniff"]),
                       ("Content-Type", ["text/plain; charset=utf-8"])],
        body := "" ++ (e ++ "\n") } := rfl
  rw [hx, hw]
  have hbody : "" ++ (e ++ "\n") = e ++ "\n" := by simp
  refine ⟨rfl, rfl, hbody, ?_, rfl, rfl, ?_, rfl⟩
  · intro hempty
    have hlen := congrArg String.length hempty
    simp only [String.length_append] at hlen
    have hnl : "\n".length = 1 := rfl
    have hnil : "".length = 0 := rfl
    omega
  · intro name hname
    simp only [corsNames, List.mem_cons, List.mem_singleton, List.mem_nil_iff,
      or_false] at hname
    rcases hname with h | h | h <;> subst h <;> rfl

theorem handleProxyRequest_transport_error_witness :
    (fun _ : Request => (Except.error "dial tcp: connection refused" : Except String Response))
        (modifyRequestHeaders browserRequest) = Except.error "dial tcp: connection refused" ∧
    (serve listedGlobals true (fun _ => Except.error "dial tcp: connection refused")
        browserRequest).w.status = 500 ∧
    (serve listedGlobals true (fun _ => Except.error "dial tcp: connection refused")
        browserRequest).w.body = "dial tcp: connection refused\n" :=
  ⟨rfl,
    (handleProxyRequest_transport_error listedGlobals
      (fun _ => Except.error "dial tcp: connection refused") browserRequest
      "dial tcp: connection refused" rfl).2.1,
    (handleProxyRequest_transport_error listedGlobals
      (fun _ => Except.error "dial tcp: connection refused") browserRequest
      "dial tcp: connection refused" rfl).2.2.1⟩

/-- C7: for an upstream header map with canonical keys (one entry per key, as
in a Go map) and a response header map that starts empty, every name other
than the three CORS names has, after `copyResponseHeaders`, exactly the
upstream list of values (same length, same order), and every name present
afterwards is an upstream name or one of the three CORS names. -/
theorem copyResponseHeaders_preserves_other_headers (g : Globals) (w : ResponseWriter)
    (resp : Response) (hw : w.header = [])
    (hnodup : (Header.keys resp.header).Nodup)
    (hcanon : ∀ key ∈ Header.keys resp.header, CanonicalMIMEHeaderKey key = key) :
    (∀ name, name ∉ corsNames →
      Header.index (copyResponseHeaders g w resp).header name =
        Header.index resp.header name) ∧
    (∀ name ∈ Header.keys (copyResponseHeaders g w resp).header,
      name ∈ Header.keys resp.header ∨ name ∈ corsNames) := by
  constructor
  · intro name hname
    simp only [corsNames, List.mem_cons, List.mem_singleton, not_or, List.mem_nil_iff,
      or_false] at hname
    obtain ⟨h1, h2, h3⟩ := hname
    have e1 : ¬ ("Access-Control-Allow-Origin" = name) := fun e => h1 e.symm
    have e2 : ¬ ("Access-Control-Allow-Methods" = name) := fun e => h2 e.symm
    have e3 : ¬ ("Access-Control-Allow-Headers" = name) := fun e => h3 e.symm
    simp only [copyResponseHeaders, Header.index_Set, canon_allow_origin, canon_allow_methods,
      canon_allow_headers, e1, e2, e3, if_false]
    rw [index_copyLoop resp.header w.header name hnodup hcanon, hw]
    simp [Header.index, Header.lookup]
  · intro name hname
    simp only [copyResponseHeaders, Header.mem_keys_Set, canon_allow_origin,
      canon_allow_methods, canon_allow_headers] at hname
    rcases hname with h | h | h | h
    · right; simp [corsNames, h]
    · right; simp [corsNames, h]
    · right; simp [corsNames, h]
    · rcases mem_keys_copyLoop resp.header w.header name hcanon h with h0 | h0
      · rw [hw] at h0
        simp [Header.keys] at h0
      · exact Or.inl h0

theorem copyResponseHeaders_preserves_other_headers_witness :
    ResponseWriter.new.header = [] ∧
    (Header.keys notFoundResponse.header).Nodup ∧
    (∀ key ∈ Header.keys notFoundResponse.header, CanonicalMIMEHeaderKey key = key) ∧
    "Set-Cookie" ∉ corsNames ∧
    Header.index (copyResponseHeaders listedGlobals ResponseWriter.new notFoundResponse).header
        "Set-Cookie" = ["a=1", "b=2"] :=
  ⟨rfl, by decide, by decide, by decide,
    (copyResponseHeaders_preserves_other_headers listedGlobals ResponseWriter.new
      notFoundResponse rfl (by decide) (by decide)).1 "Set-Cookie" (by decide)⟩

/-- C8 (as stated, refuted): `modifyRequestHeaders` changes the header mapping
of a request without `Origin` (the header appears, with one empty value) and
of a request with two `Origin` values (only the first is kept). -/
theorem modifyRequestHeaders_not_noop :
    (Header.lookup plainRequest.header "Origin" = none ∧
      Header.lookup (modifyRequestHeaders plainRequest).header "Origin" = some [""] ∧
      ¬ ∀ k, Header.lookup (modifyRequestHeaders plainRequest).header k =
          Header.lookup plainRequest.header k) ∧
    (Header.lookup twoOriginRequest.header "Origin" =
        some ["https://one.example", "https://two.example"] ∧
      Header.lookup (modifyRequestHeaders twoOriginRequest).header "Origin" =
        some ["https://one.example"] ∧
      ¬ ∀ k, Header.lookup (modifyRequestHeaders twoOriginRequest).header k =
          Header.lookup twoOriginRequest.header k) := by
  refine ⟨⟨by decide, by decide, ?_⟩, ⟨by decide, by decide, ?_⟩⟩
  · intro hall
    exact absurd (hall "Origin") (by decide)
  · intro hall
    exact absurd (hall "Origin") (by decide)

/-- C8 (amended): `modifyRequestHeaders` keeps the method, URL, body and every
header other than `Origin` and `X-Requested-With`; it sets each of these two
to exactly one value, the first inbound value or the empty string when there
is none; hence the header mapping is unchanged exactly when both headers came
in with exactly one value. -/
theorem modifyRequestHeaders_effect (r : Request) :
    (modifyRequestHeaders r).method = r.method ∧
    (modifyRequestHeaders r).url = r.url ∧
    (modifyRequestHeaders r).body = r.body ∧
    Header.lookup (modifyRequestHeaders r).header "Origin" =
      some [Header.Get r.header "Origin"] ∧
    Header.lookup (modifyRequestHeaders r).header "X-Requested-With" =
      some [Header.Get r.header "X-Requested-With"] ∧
    (∀ k, k ≠ "Origin" → k ≠ "X-Requested-With" →
      Header.lookup (modifyRequestHeaders r).header k = Header.lookup r.header k) ∧
    ((∀ k, Header.lookup (modifyRequestHeaders r).header k = Header.lookup r.header k) ↔
      (∃ o, Header.lookup r.header "Origin" = some [o]) ∧
      (∃ x, Header.lookup r.header "X-Requested-With" = some [x])) := by
  have hget : Header.Get (Header.Set r.header "origin" (Header.Get r.header "Origin"))
      "X-Requested-With" = Header.Get r.header "X-Requested-With" := by
    unfold Header.Get
    rw [Header.index_Set, canon_origin_lower, canon_requested_with]
    rw [if_neg (by decide)]
  have hlk : ∀ k, Header.lookup (modifyRequestHeaders r).header k =
      if "X-Requested-With" = k then some [Header.Get r.header "X-Requested-With"]
      else if "Origin" = k then some [Header.Get r.header "Origin"]
      else Header.lookup r.header k := by
    intro k
    simp only [modifyRequestHeaders, Header.lookup_Set, canon_origin_lower,
      canon_requested_with_lower, hget]
  have hO : Header.lookup (modifyRequestHeaders r).header "Origin" =
      some [Header.Get r.header "Origin"] := by
    rw [hlk, if_neg (by decide), if_pos rfl]
  have hX : Header.lookup (modifyRequestHeaders r).header "X-Requested-With" =
      some [Header.Get r.header "X-Requested-With"] := by
    rw [hlk, if_pos rfl]
  have hrest : ∀ k, k ≠ "Origin" → k ≠ "X-Requested-With" →
      Header.lookup (modifyRequestHeaders r).header k = Header.lookup r.header k := by
    intro k h1 h2
    rw [hlk, if_neg (fun e => h2 e.symm), if_neg (fun e => h1 e.symm)]
  refine ⟨rfl, rfl, rfl, hO, hX, hrest, ?_⟩
  constructor
  · intro hall
    exact ⟨⟨_, (hall "Origin").symm.trans hO⟩, ⟨_, (hall "X-Requested-With").symm.trans hX⟩⟩
  · rintro ⟨⟨o, ho⟩, ⟨x, hx⟩⟩ k
    by_cases h2 : k = "X-Requested-With"
    · subst h2
      rw [hX, hx]
      simp [Header.Get, Header.index, canon_requested_with, hx]
    · by_cases h1 : k = "Origin"
      · subst h1
        rw [hO, ho]
        simp [Header.Get, Header.index, canon_origin, ho]
      · exact hrest k h1 h2

theorem modifyRequestHeaders_effect_witness :
    "Cookie" ≠ "Origin" ∧ "Cookie" ≠ "X-Requested-With" ∧
    Header.lookup (modifyRequestHeaders browserRequest).header "Cookie" =
      some ["a=1", "b=2"] ∧
    Header.lookup (modifyRequestHeaders browserRequest).header "Origin" =
      some ["https://page.example"] ∧
    (∀ k, Header.lookup (modifyRequestHeaders browserRequest).header k =
      Header.lookup browserRequest.header k) :=
  ⟨by decide, by decide,
    (modifyRequestHeaders_effect browserRequest).2.2.2.2.2.1 "Cookie" (by decide) (by decide),
    (modifyRequestHeaders_effect browserRequest).2.2.2.1,
    (modifyRequestHeaders_effect browserRequest).2.2.2.2.2.2.2
      ⟨⟨"https://page.example", by decide⟩, ⟨"XMLHttpRequest", by decide⟩⟩⟩

/-- C9: when the upstream response has no Access-Control-Allow-Origin value
(absent or empty) and the whitelist is empty, `copyResponseHeaders` still
writes the header: it is present afterwards with exactly one value, the empty
string. -/
theorem copyResponseHeaders_empty_whitelist (g : Globals) (w : ResponseWriter)
    (resp : Response) (hwl : g.originWhitelist = [])
    (hnone : Header.Get resp.header "Access-Control-Allow-Origin" = "") :
    "Access-Control-Allow-Origin" ∈ Header.keys (copyResponseHeaders g w resp).header ∧
    Header.lookup (copyResponseHeaders g w resp).header "Access-Control-Allow-Origin" =
      some [""] := by
  constructor
  · simp [copyResponseHeaders, Header.mem_keys_Set, canon_allow_origin]
  · rw [lookup_allow_origin, hnone, hwl]
    simp

theorem copyResponseHeaders_empty_whitelist_witness :
    emptyGlobals.originWhitelist = [] ∧
    Header.Get bareResponse.header "Access-Control-Allow-Origin" = "" ∧
    Header.lookup (copyResponseHeaders emptyGlobals ResponseWriter.new bareResponse).header
        "Access-Control-Allow-Origin" = some [""] :=
  ⟨rfl, by decide,
    (copyResponseHeaders_empty_whitelist emptyGlobals ResponseWriter.new bareResponse rfl
      (by decide)).2⟩

/-- C10: the blacklist is never read: for every whitelist, limiter outcome,
behaviour of the upstream call, response writer and request, two runs of
`handleProxyRequest` that differ only in `originBlacklist` end with the same
response writer (status, headers, body), the same request and the same
forwarded request. -/
theorem handleProxyRequest_ignores_blacklist (bl1 bl2 wl : List String) (allow : Bool)
    (client : Request → Except String Response) (w : ResponseWriter) (r : Request) :
    handleProxyRequest { originBlacklist := bl1, originWhitelist := wl } allow client w r =
      handleProxyRequest { originBlacklist := bl2, originWhitelist := wl } allow client w r ∧
    serve { originBlacklist := bl1, originWhitelist := wl } allow client r =
      serve { originBlacklist := bl2, originWhitelist := wl } allow client r :=
  ⟨rfl, rfl⟩

end CorsAnywhere
